import Mathlib

/-!
Verification of the projection engine of the SaaS revenue projection
calculator (file src/App.tsx).  The two core functions,
`calculateProjections` (the month-by-month simulator) and
`calculateBusinessMetrics` (the derived-metrics function), are embedded
below as pure Lean functions over exact rational arithmetic.  JavaScript
numbers are modelled as rationals; the one place where the source can
produce a non-finite value (the unguarded division by the first month
MRR in the growth-rate computation) is modelled with an `Option`, where
`none` stands for the non-finite result (NaN or a signed infinity).
-/

namespace SaaSCalc

/-- JavaScript `Math.round`: rounds to the nearest integer, halves toward
positive infinity. -/
def jsRound (q : ℚ) : ℤ := ⌊q + 1 / 2⌋

/-- Rounding to one decimal place, as in `Math.round(x * 10) / 10`. -/
def jsRound1 (q : ℚ) : ℚ := ((jsRound (q * 10) : ℤ) : ℚ) / 10

/-- Rounding to two decimal places, as in `Math.round(x * 100) / 100`. -/
def jsRound2 (q : ℚ) : ℚ := ((jsRound (q * 100) : ℤ) : ℚ) / 100

/-- JavaScript `Array.prototype.findIndex`: the least index whose element
satisfies the predicate, and -1 when there is none. -/
def jsFindIndex {α : Type} (p : α → Bool) : List α → ℤ
  | [] => -1
  | a :: l =>
    if p a then 0
    else if jsFindIndex p l = -1 then -1 else jsFindIndex p l + 1

/-- A pricing tier, interface `Plan` of the source. -/
structure Plan where
  id : String
  name : String
  price : ℚ
  probability : ℚ

/-- The configuration consumed by `calculateProjections`; one field per
positional parameter of the source function (the trailing `months`
parameter is kept separate).  `customersPerMonth = none` models the
JavaScript `null` (auto mode). -/
structure CalculatorConfig where
  targetIncome : ℚ
  avgMonthlyRevenue : ℚ
  plans : List Plan
  churnRate : ℚ
  cac : ℚ
  expansionRate : ℚ
  supportCost : ℚ
  infraCost : ℚ
  customersPerMonth : Option ℚ

/-- One record of the output time series, interface `MonthData` of the
source.  Fields that the source rounds with `Math.round` before pushing
are integers here; `customers` is pushed unrounded. -/
structure MonthData where
  month : ℕ
  revenue : ℤ
  customers : ℚ
  mrr : ℤ
  churnedCustomers : ℤ
  netRevenue : ℤ
  expansionRevenue : ℤ
  operatingCosts : ℤ
  profit : ℤ

/-- The running state of the simulation loop: the six mutable locals of
`calculateProjections`. -/
structure SimState where
  totalCustomers : ℚ
  activeCustomers : ℚ
  cumulativeRevenue : ℚ
  cumulativeNetRevenue : ℚ
  cumulativeProfit : ℚ
  previousMrr : ℚ

/-- All six loop locals start at 0. -/
def initState : SimState := ⟨0, 0, 0, 0, 0, 0⟩

/-- The constant monthly acquisition volume, computed once before the
loop: the override when one is given, otherwise
`Math.ceil(targetIncome / avgMonthlyRevenue)` when `avgMonthlyRevenue`
is positive, otherwise 0. -/
def customersNeededPerMonth (cfg : CalculatorConfig) : ℚ :=
  match cfg.customersPerMonth with
  | some c => c
  | none =>
    if cfg.avgMonthlyRevenue > 0
    then ((⌈cfg.targetIncome / cfg.avgMonthlyRevenue⌉ : ℤ) : ℚ)
    else 0

/-- Sum of the plan probabilities, `plans.reduce((sum, p) => sum + p.probability, 0)`. -/
def totalProb (plans : List Plan) : ℚ :=
  plans.foldl (fun sum p => sum + p.probability) 0

/-- The `baseMonthlyRevenue` computation of the loop body: the
probability-weighted tiered revenue when plans are present (each weight
normalized by the probability sum, with a fallback of 0 when that sum is
not positive), otherwise the flat rate times the active pool. -/
def baseRevenue (plans : List Plan) (avgMonthlyRevenue activeCustomers : ℚ) : ℚ :=
  if plans.length > 0 then
    plans.foldl
      (fun sum plan =>
        sum + plan.price *
          (if totalProb plans > 0 then plan.probability / totalProb plans else 0) *
          activeCustomers)
      0
  else
    activeCustomers * avgMonthlyRevenue

/-- One iteration of the `for` loop of `calculateProjections`: consumes
the running state and the 1-based month index, produces the next state
and the emitted record. -/
def simStep (cfg : CalculatorConfig) (st : SimState) (month : ℕ) : SimState × MonthData :=
  let c := customersNeededPerMonth cfg
  let totalCustomers := st.totalCustomers + c
  let poolAfterAcq := st.activeCustomers + c
  let churnedThisMonth : ℤ := ⌊poolAfterAcq * (cfg.churnRate / 100)⌋
  let activeCustomers := poolAfterAcq - (churnedThisMonth : ℚ)
  let baseMonthlyRevenue := baseRevenue cfg.plans cfg.avgMonthlyRevenue activeCustomers
  let expansionRevenueAmount := st.previousMrr * (cfg.expansionRate / 100)
  let monthlyRevenue := baseMonthlyRevenue + expansionRevenueAmount
  let supportCosts := activeCustomers * cfg.supportCost
  let infraCosts := activeCustomers * cfg.infraCost
  let acquisitionCost := c * cfg.cac
  let totalOperatingCosts := supportCosts + infraCosts + acquisitionCost
  let netMonthlyRevenue := monthlyRevenue - acquisitionCost
  let monthlyProfit := monthlyRevenue - totalOperatingCosts
  let cumulativeRevenue := st.cumulativeRevenue + monthlyRevenue
  let cumulativeNetRevenue := st.cumulativeNetRevenue + netMonthlyRevenue
  let cumulativeProfit := st.cumulativeProfit + monthlyProfit
  (⟨totalCustomers, activeCustomers, cumulativeRevenue, cumulativeNetRevenue,
     cumulativeProfit, monthlyRevenue⟩,
   ⟨month, jsRound cumulativeRevenue, totalCustomers, jsRound monthlyRevenue,
     churnedThisMonth, jsRound cumulativeNetRevenue, jsRound expansionRevenueAmount,
     jsRound totalOperatingCosts, jsRound cumulativeProfit⟩)

/-- The simulation loop: `remaining` months still to run, starting at the
given month index and state. -/
def simLoop (cfg : CalculatorConfig) (st : SimState) (month : ℕ) : ℕ → List MonthData
  | 0 => []
  | r + 1 =>
    (simStep cfg st month).2 :: simLoop cfg (simStep cfg st month).1 (month + 1) r

/-- The projection simulator: 60 months by default in the source, the
horizon kept as a parameter. -/
def calculateProjections (cfg : CalculatorConfig) (months : ℕ) : List MonthData :=
  simLoop cfg initState 1 months

/-- The state reached after `k` iterations of the loop, starting from the
all-zero initial state. -/
def simState (cfg : CalculatorConfig) : ℕ → SimState
  | 0 => initState
  | k + 1 => (simStep cfg (simState cfg k) (k + 1)).1

/-- The `growthRate` local of `calculateBusinessMetrics`:
`firstMonth && finalMonth ? ((final.mrr - first.mrr) / first.mrr) * 100 / 60 * 12 : 0`.
The division is not guarded, so when the first month MRR is 0 the
JavaScript value is NaN or a signed infinity; that non-finite outcome is
modelled by `none`. -/
def growthRateOf (projections : List MonthData) : Option ℚ :=
  match projections.head?, projections.getLast? with
  | some firstMonth, some finalMonth =>
    if (firstMonth.mrr : ℚ) = 0 then none
    else some ((((finalMonth.mrr : ℚ) - (firstMonth.mrr : ℚ)) / (firstMonth.mrr : ℚ))
      * 100 / 60 * 12)
  | _, _ => some 0

/-- The aggregate metrics record, interface `BusinessMetrics` of the
source.  `ltvCac` is the field the source names with a trailing Ratio;
`ruleOf40` is an `Option` because it inherits the possibly non-finite
growth rate. -/
structure BusinessMetrics where
  clv : ℤ
  arr : ℤ
  valuation : ℤ
  paybackPeriod : ℚ
  grossMargin : ℚ
  ltvCac : ℚ
  nrr : ℚ
  grr : ℚ
  ruleOf40 : Option ℚ
  breakEvenMonth : ℤ
  averageArpu : ℚ

/-- The metrics derivation `calculateBusinessMetrics`.  The `arr` local is
`finalMonth?.mrr * 12 || 0` in the source: 0 for an empty series, and
otherwise the `|| 0` maps a zero product to 0, which is the identity. -/
def calculateBusinessMetrics (projections : List MonthData)
    (avgMonthlyRevenue churnRate cac expansionRate : ℚ) : BusinessMetrics :=
  let finalMonth := projections.getLast?
  let arr : ℚ := match finalMonth with
    | some f => (f.mrr : ℚ) * 12
    | none => 0
  let monthlyChurnRate := churnRate / 100
  let clv := if monthlyChurnRate > 0 then avgMonthlyRevenue / monthlyChurnRate
    else avgMonthlyRevenue * 12
  let valuation := arr * 7
  let paybackPeriod := if avgMonthlyRevenue > 0 then cac / avgMonthlyRevenue else 0
  let ltvCacValue := if cac > 0 then clv / cac else 0
  let retentionRate := 1 - monthlyChurnRate
  let nrr := (retentionRate + expansionRate / 100) * 100
  let grr := retentionRate * 100
  let growthRate := growthRateOf projections
  let profitMargin : ℚ := match finalMonth with
    | some f =>
      if (f.mrr : ℚ) > 0
      then (((f.mrr : ℚ) - (f.operatingCosts : ℚ)) / (f.mrr : ℚ)) * 100
      else 0
    | none => 0
  let ruleOf40 := growthRate.map (fun g => g + profitMargin)
  let breakEvenMonth : ℤ := jsFindIndex (fun d => decide (0 ≤ d.profit)) projections
  let averageArpu := avgMonthlyRevenue
  let grossMargin : ℚ := 80
  { clv := jsRound clv
    arr := jsRound arr
    valuation := jsRound valuation
    paybackPeriod := jsRound1 paybackPeriod
    grossMargin := grossMargin
    ltvCac := jsRound1 ltvCacValue
    nrr := jsRound1 nrr
    grr := jsRound1 grr
    ruleOf40 := ruleOf40.map jsRound1
    breakEvenMonth := if breakEvenMonth > 0 then breakEvenMonth else -1
    averageArpu := jsRound2 averageArpu }

/-- The default configuration of the UI state: targetIncome 10000,
avgMonthlyRevenue 50, no plans, churnRate 10, cac 100, expansionRevenue 5,
supportCostPerUser 2, infrastructureCostPerUser 3, auto customer volume. -/
def demoConfig : CalculatorConfig :=
  ⟨10000, 50, [], 10, 100, 5, 2, 3, none⟩

/-- A configuration with no acquisition or per-user costs: month 1 is
already profitable. -/
def profitConfig : CalculatorConfig :=
  ⟨10000, 50, [], 10, 0, 5, 0, 0, none⟩

/-- A configuration whose flat price is 0 while customers are still
acquired through an override: every monthly gross revenue is 0. -/
def zeroRevenueConfig : CalculatorConfig :=
  ⟨0, 0, [], 0, 0, 0, 0, 0, some 1⟩

/-- A two-tier plan list with probabilities summing to 100. -/
def demoPlans : List Plan :=
  [⟨"starter", "Starter", 30, 60⟩, ⟨"pro", "Pro", 100, 40⟩]

/-- A configuration in auto mode with a zero flat price. -/
def autoZeroConfig : CalculatorConfig :=
  ⟨500, 0, [], 10, 100, 5, 2, 3, none⟩

lemma foldl_add_map {α : Type} (f : α → ℚ) :
    ∀ (l : List α) (s : ℚ), l.foldl (fun acc x => acc + f x) s = s + (l.map f).sum := by
  intro l
  induction l with
  | nil => intro s; simp
  | cons a l ih => intro s; simp [ih, add_assoc]

lemma simLoop_length (cfg : CalculatorConfig) :
    ∀ (r : ℕ) (st : SimState) (m : ℕ), (simLoop cfg st m r).length = r := by
  intro r
  induction r with
  | zero => intro st m; rfl
  | succ r ih => intro st m; simp [simLoop, ih]

lemma simLoop_succ (cfg : CalculatorConfig) (st : SimState) (m r : ℕ) :
    simLoop cfg st m (r + 1) =
      (simStep cfg st m).2 :: simLoop cfg (simStep cfg st m).1 (m + 1) r := rfl

lemma simLoop_get_month (cfg : CalculatorConfig) :
    ∀ (r : ℕ) (st : SimState) (m i : ℕ) (hi : i < (simLoop cfg st m r).length),
      ((simLoop cfg st m r).get ⟨i, hi⟩).month = m + i := by
  intro r
  induction r with
  | zero => intro st m i hi; simp [simLoop] at hi
  | succ r ih =>
    intro st m i hi
    cases i with
    | zero => rfl
    | succ i =>
      have hlen : i < (simLoop cfg (simStep cfg st m).1 (m + 1) r).length := by
        rw [simLoop_length] at hi ⊢
        omega
      have h2 := ih (simStep cfg st m).1 (m + 1) i hlen
      have h3 : ((simLoop cfg st m (r + 1)).get ⟨i + 1, hi⟩).month =
          ((simLoop cfg (simStep cfg st m).1 (m + 1) r).get ⟨i, hlen⟩).month := rfl
      rw [h3, h2]
      omega

/-- Claim C5: for every configuration and horizon, the simulator returns
exactly `months` records whose month fields are the 1-based positions,
hence 1..months strictly increasing by 1. -/
theorem projection_months_enumerated (cfg : CalculatorConfig) (months : ℕ) :
    (calculateProjections cfg months).length = months ∧
    ∀ (i : ℕ) (hi : i < (calculateProjections cfg months).length),
      ((calculateProjections cfg months).get ⟨i, hi⟩).month = i + 1 := by
  refine ⟨simLoop_length cfg months initState 1, ?_⟩
  intro i hi
  have h := simLoop_get_month cfg months initState 1 i hi
  rw [Nat.add_comm] at h
  exact h

/-- Witness for claim C5 at the default configuration and a horizon of 2. -/
theorem projection_months_enumerated_witness :
    (calculateProjections demoConfig 2).length = 2 ∧
    ((calculateProjections demoConfig 2).get
        ⟨0, by norm_num [calculateProjections, simLoop_length]⟩).month = 0 + 1 :=
  ⟨(projection_months_enumerated demoConfig 2).1,
   (projection_months_enumerated demoConfig 2).2 0
     (by norm_num [calculateProjections, simLoop_length])⟩

/-- Claim C3: on the default configuration the acquisition volume is
ceil(10000 / 50) = 200 and the month-1 record of the 60-month run is
exactly (month 1, cumulative revenue 9000, 200 customers, mrr 9000,
20 churned, net revenue -11000, expansion 0, operating costs 20900,
cumulative profit -11900). -/
theorem demo_month_one_values :
    customersNeededPerMonth demoConfig = 200 ∧
    (calculateProjections demoConfig 60).head? =
      some ⟨1, 9000, 200, 9000, 20, -11000, 0, 20900, -11900⟩ := by
  have hc : customersNeededPerMonth demoConfig = 200 := by
    norm_num [customersNeededPerMonth, demoConfig]
  refine ⟨hc, ?_⟩
  have h60 : (60 : ℕ) = 59 + 1 := rfl
  rw [calculateProjections, h60, simLoop_succ, List.head?_cons]
  simp only [simStep, hc]
  norm_num [demoConfig, initState, baseRevenue, totalProb, jsRound,
    MonthData.mk.injEq, Int.floor_eq_iff]

lemma jsFindIndex_ge {α : Type} (p : α → Bool) : ∀ l : List α, -1 ≤ jsFindIndex p l := by
  intro l
  induction l with
  | nil => simp [jsFindIndex]
  | cons a l ih =>
    simp only [jsFindIndex]
    by_cases h : p a
    · simp [h]
    · simp only [h, if_false, Bool.false_eq_true]
      split
      · omega
      · omega

lemma jsFindIndex_cons_pos {α : Type} (p : α → Bool) (a : α) (l : List α)
    (h : p a = true) : jsFindIndex p (a :: l) = 0 := by
  simp [jsFindIndex, h]

lemma jsFindIndex_cons_neg {α : Type} (p : α → Bool) (a : α) (l : List α)
    (h : p a = false) :
    jsFindIndex p (a :: l) =
      if jsFindIndex p l = -1 then -1 else jsFindIndex p l + 1 := by
  simp [jsFindIndex, h]

lemma jsFindIndex_neg_iff {α : Type} (p : α → Bool) :
    ∀ l : List α, jsFindIndex p l = -1 ↔ ∀ x ∈ l, p x = false := by
  intro l
  induction l with
  | nil => simp [jsFindIndex]
  | cons a l ih =>
    cases h : p a with
    | true =>
      rw [jsFindIndex_cons_pos p a l h]
      constructor
      · intro h0; exact absurd h0 (by norm_num)
      · intro hall
        have ha := hall a (List.mem_cons_self a l)
        rw [h] at ha
        exact absurd ha (by simp)
    | false =>
      rw [jsFindIndex_cons_neg p a l h]
      by_cases h2 : jsFindIndex p l = -1
      · rw [if_pos h2]
        constructor
        · intro _ x hx
          rcases List.mem_cons.mp hx with rfl | hx2
          · exact h
          · exact (ih.mp h2) x hx2
        · intro _; rfl
      · rw [if_neg h2]
        have hge := jsFindIndex_ge p l
        constructor
        · intro h0; omega
        · intro hall
          exact absurd (ih.mpr fun x hx => hall x (List.mem_cons_of_mem a hx)) h2

lemma jsFindIndex_cons_zero_iff {α : Type} (p : α → Bool) (a : α) (l : List α) :
    jsFindIndex p (a :: l) = 0 ↔ p a = true := by
  cases h : p a with
  | true => simp [jsFindIndex_cons_pos p a l h]
  | false =>
    rw [jsFindIndex_cons_neg p a l h]
    have hge := jsFindIndex_ge p l
    constructor
    · intro h0
      by_cases h2 : jsFindIndex p l = -1
      · rw [if_pos h2] at h0; omega
      · rw [if_neg h2] at h0; omega
    · intro hcontra; exact absurd hcontra (by simp [h])

lemma jsFindIndex_found {α : Type} (p : α → Bool) :
    ∀ l : List α, 0 ≤ jsFindIndex p l →
      ∃ h : (jsFindIndex p l).toNat < l.length,
        p (l.get ⟨(jsFindIndex p l).toNat, h⟩) = true ∧
        ∀ (i : ℕ) (hi : i < l.length), i < (jsFindIndex p l).toNat →
          p (l.get ⟨i, hi⟩) = false := by
  intro l
  induction l with
  | nil => intro h0; simp [jsFindIndex] at h0
  | cons a l ih =>
    intro h0
    cases h : p a with
    | true =>
      rw [jsFindIndex_cons_pos p a l h]
      refine ⟨by simp, by simpa using h, ?_⟩
      intro i hi hlt
      simp at hlt
    | false =>
      rw [jsFindIndex_cons_neg p a l h] at h0 ⊢
      by_cases h2 : jsFindIndex p l = -1
      · rw [if_pos h2] at h0; exact absurd h0 (by norm_num)
      · rw [if_neg h2] at h0 ⊢
        have hge := jsFindIndex_ge p l
        have hnn : 0 ≤ jsFindIndex p l := by omega
        obtain ⟨hl, hp, hpre⟩ := ih hnn
        have htn : (jsFindIndex p l + 1).toNat = (jsFindIndex p l).toNat + 1 := by omega
        rw [htn]
        refine ⟨by simpa using Nat.succ_lt_succ hl, by simpa using hp, ?_⟩
        intro i hi hlt
        cases i with
        | zero => simpa using h
        | succ i =>
          have hi2 : i < l.length := by simpa using hi
          have := hpre i hi2 (by omega)
          simpa using this

lemma breakEvenMonth_eq (projections : List MonthData) (a r c e : ℚ) :
    (calculateBusinessMetrics projections a r c e).breakEvenMonth =
      (if jsFindIndex (fun d => decide (0 ≤ d.profit)) projections > 0
       then jsFindIndex (fun d => decide (0 ≤ d.profit)) projections
       else -1) := rfl

/-- Claim C1: the break-even result of the metrics derivation is either a
positive index whose record has cumulative profit at least 0, every
earlier index other than possibly index 0 having negative cumulative
profit, or the sentinel -1; and the sentinel is returned exactly when no
record qualifies or the first qualifying index is 0. -/
theorem breakEven_partition (ps : List MonthData) (hne : ps ≠ []) (a r c e : ℚ) :
    ((calculateBusinessMetrics ps a r c e).breakEvenMonth = -1 ∨
      (0 < (calculateBusinessMetrics ps a r c e).breakEvenMonth ∧
        ∃ hb : ((calculateBusinessMetrics ps a r c e).breakEvenMonth).toNat < ps.length,
          0 ≤ (ps.get ⟨((calculateBusinessMetrics ps a r c e).breakEvenMonth).toNat, hb⟩).profit ∧
          ∀ (i : ℕ) (hi : i < ps.length),
            i < ((calculateBusinessMetrics ps a r c e).breakEvenMonth).toNat → 0 < i →
              (ps.get ⟨i, hi⟩).profit < 0)) ∧
    ((calculateBusinessMetrics ps a r c e).breakEvenMonth = -1 ↔
      ((∀ (i : ℕ) (hi : i < ps.length), (ps.get ⟨i, hi⟩).profit < 0) ∨
        0 ≤ (ps.head hne).profit)) := by
  have hbe := breakEvenMonth_eq ps a r c e
  by_cases hpos : 0 < jsFindIndex (fun d => decide (0 ≤ d.profit)) ps
  · rw [hbe, if_pos hpos]
    obtain ⟨hb, hp, hpre⟩ :=
      jsFindIndex_found (fun d : MonthData => decide (0 ≤ d.profit)) ps (le_of_lt hpos)
    constructor
    · refine Or.inr ⟨hpos, hb, ?_, ?_⟩
      · exact of_decide_eq_true hp
      · intro i hi hlt _
        have := hpre i hi hlt
        have hnd : ¬ (0 ≤ (ps.get ⟨i, hi⟩).profit) := of_decide_eq_false this
        omega
    · constructor
      · intro h0; omega
      · intro hcase
        exfalso
        rcases hcase with hall | hhead
        · have : jsFindIndex (fun d => decide (0 ≤ d.profit)) ps = -1 := by
            rw [jsFindIndex_neg_iff]
            intro x hx
            obtain ⟨i, rfl⟩ := List.mem_iff_get.mp hx
            exact decide_eq_false
              (show ¬ (0 ≤ (ps.get ⟨i.1, i.2⟩).profit) by have := hall i.1 i.2; omega)
          omega
        · obtain ⟨x, t, rfl⟩ := List.exists_cons_of_ne_nil hne
          rw [List.head_cons] at hhead
          have h0 : jsFindIndex (fun d => decide (0 ≤ d.profit)) (x :: t) = 0 :=
            (jsFindIndex_cons_zero_iff _ x t).mpr (decide_eq_true hhead)
          omega
  · rw [hbe, if_neg hpos]
    have hge := jsFindIndex_ge (fun d => decide (0 ≤ d.profit)) ps
    refine ⟨Or.inl rfl, ?_⟩
    constructor
    · intro _
      by_cases h2 : jsFindIndex (fun d => decide (0 ≤ d.profit)) ps = -1
      · refine Or.inl ?_
        intro i hi
        have := (jsFindIndex_neg_iff _ ps).mp h2 (ps.get ⟨i, hi⟩) (ps.get_mem i hi)
        have hnd : ¬ (0 ≤ (ps.get ⟨i, hi⟩).profit) := of_decide_eq_false this
        omega
      · have h0 : jsFindIndex (fun d => decide (0 ≤ d.profit)) ps = 0 := by omega
        obtain ⟨x, t, rfl⟩ := List.exists_cons_of_ne_nil hne
        have := (jsFindIndex_cons_zero_iff _ x t).mp h0
        refine Or.inr ?_
        rw [List.head_cons]
        exact of_decide_eq_true this
    · intro _; rfl

/-- Witness for claim C1: on the default configuration restricted to one
month, cumulative profit is negative everywhere, so the sentinel is
returned. -/
theorem breakEven_partition_witness :
    (calculateBusinessMetrics (calculateProjections demoConfig 1) 50 10 100 5).breakEvenMonth
      = -1 := by
  have hps : calculateProjections demoConfig 1 = [(simStep demoConfig initState 1).2] := rfl
  have hne : calculateProjections demoConfig 1 ≠ [] := by rw [hps]; exact List.cons_ne_nil _ _
  refine (breakEven_partition (calculateProjections demoConfig 1) hne 50 10 100 5).2.mpr
    (Or.inl ?_)
  intro i hi
  rw [hps] at hi
  simp only [List.length_cons, List.length_nil] at hi
  have hi0 : i = 0 := by omega
  subst hi0
  have hval : ((calculateProjections demoConfig 1).get ⟨0, hi⟩).profit =
      ((simStep demoConfig initState 1).2).profit := rfl
  rw [hval]
  have hc : customersNeededPerMonth demoConfig = 200 := by
    norm_num [customersNeededPerMonth, demoConfig]
  simp only [simStep, hc]
  norm_num [demoConfig, initState, baseRevenue, totalProb, jsRound, Int.floor_eq_iff]

/-- Claim C10: whenever the metrics derivation returns a break-even value
b greater than 0 on a simulated series, b is the 0-based position of the
first record with non-negative cumulative profit, whose month field is
b + 1; and when the first record already has non-negative cumulative
profit the sentinel -1 is returned. -/
theorem breakEven_index_is_offset (cfg : CalculatorConfig) (months : ℕ) (a r c e : ℚ) :
    (0 < (calculateBusinessMetrics (calculateProjections cfg months) a r c e).breakEvenMonth →
      ∃ hb : ((calculateBusinessMetrics (calculateProjections cfg months) a r c e).breakEvenMonth).toNat
          < (calculateProjections cfg months).length,
        0 ≤ ((calculateProjections cfg months).get
            ⟨((calculateBusinessMetrics (calculateProjections cfg months) a r c e).breakEvenMonth).toNat, hb⟩).profit ∧
        (∀ (i : ℕ) (hi : i < (calculateProjections cfg months).length),
          i < ((calculateBusinessMetrics (calculateProjections cfg months) a r c e).breakEvenMonth).toNat →
            ((calculateProjections cfg months).get ⟨i, hi⟩).profit < 0) ∧
        ((calculateProjections cfg months).get
            ⟨((calculateBusinessMetrics (calculateProjections cfg months) a r c e).breakEvenMonth).toNat, hb⟩).month =
          ((calculateBusinessMetrics (calculateProjections cfg months) a r c e).breakEvenMonth).toNat + 1) ∧
    (∀ h0 : 0 < (calculateProjections cfg months).length,
      0 ≤ ((calculateProjections cfg months).get ⟨0, h0⟩).profit →
        (calculateBusinessMetrics (calculateProjections cfg months) a r c e).breakEvenMonth = -1) := by
  have hbe := breakEvenMonth_eq (calculateProjections cfg months) a r c e
  constructor
  · intro hpos
    rw [hbe] at hpos ⊢
    by_cases hj : 0 < jsFindIndex (fun d => decide (0 ≤ d.profit)) (calculateProjections cfg months)
    · rw [if_pos hj] at hpos ⊢
      obtain ⟨hb, hp, hpre⟩ :=
        jsFindIndex_found (fun d : MonthData => decide (0 ≤ d.profit))
          (calculateProjections cfg months) (le_of_lt hj)
      refine ⟨hb, of_decide_eq_true hp, ?_, ?_⟩
      · intro i hi hlt
        have := hpre i hi hlt
        have hnd : ¬ (0 ≤ ((calculateProjections cfg months).get ⟨i, hi⟩).profit) :=
          of_decide_eq_false this
        omega
      · have h : ((calculateProjections cfg months).get
            ⟨(jsFindIndex (fun d : MonthData => decide (0 ≤ d.profit))
                (calculateProjections cfg months)).toNat, hb⟩).month =
              1 + (jsFindIndex (fun d : MonthData => decide (0 ≤ d.profit))
                (calculateProjections cfg months)).toNat :=
          simLoop_get_month cfg months initState 1 _ hb
        omega
    · rw [if_neg hj] at hpos
      omega
  · intro h0 hprofit
    rw [hbe]
    obtain ⟨x, t, hxt⟩ : ∃ x t, calculateProjections cfg months = x :: t := by
      cases hps : calculateProjections cfg months with
      | nil => rw [hps] at h0; simp at h0
      | cons x t => exact ⟨x, t, rfl⟩
    have hx : 0 ≤ x.profit := by
      have : ((calculateProjections cfg months).get ⟨0, h0⟩) = x :=
        (List.get_of_eq hxt ⟨0, h0⟩).trans rfl
      rw [this] at hprofit
      exact hprofit
    have hz : jsFindIndex (fun d => decide (0 ≤ d.profit)) (calculateProjections cfg months) = 0 := by
      rw [hxt]
      exact (jsFindIndex_cons_zero_iff _ x t).mpr (decide_eq_true hx)
    rw [hz]
    rfl

/-- Witness for claim C10: with no acquisition or per-user costs month 1
is already profitable, so the sentinel is returned although break-even
occurred at index 0. -/
theorem breakEven_index_is_offset_witness :
    (calculateBusinessMetrics (calculateProjections profitConfig 1) 50 10 0 5).breakEvenMonth
      = -1 := by
  have hps : calculateProjections profitConfig 1 = [(simStep profitConfig initState 1).2] := rfl
  have h0 : 0 < (calculateProjections profitConfig 1).length := by
    rw [hps]; simp
  refine (breakEven_index_is_offset profitConfig 1 50 10 0 5).2 h0 ?_
  have hval : ((calculateProjections profitConfig 1).get ⟨0, h0⟩).profit =
      ((simStep profitConfig initState 1).2).profit := rfl
  rw [hval]
  have hc : customersNeededPerMonth profitConfig = 200 := by
    norm_num [customersNeededPerMonth, profitConfig]
  simp only [simStep, hc]
  norm_num [profitConfig, initState, baseRevenue, totalProb, jsRound, Int.floor_eq_iff]

lemma floor_rate_le (x r : ℚ) (hx : 0 ≤ x) (h1 : r ≤ 100) :
    ((⌊x * (r / 100)⌋ : ℤ) : ℚ) ≤ x := by
  have hr : r / 100 ≤ 1 := by
    rw [div_le_one (by norm_num : (0:ℚ) < 100)]
    exact h1
  have h2 : x * (r / 100) ≤ x := mul_le_of_le_one_right hx hr
  exact le_trans (Int.floor_le _) h2

lemma acq_nonneg (cfg : CalculatorConfig) (ht : 0 ≤ cfg.targetIncome)
    (hc : ∀ v, cfg.customersPerMonth = some v → 0 ≤ v) :
    0 ≤ customersNeededPerMonth cfg := by
  cases hov : cfg.customersPerMonth with
  | some v =>
    simp only [customersNeededPerMonth, hov]
    exact hc v hov
  | none =>
    simp only [customersNeededPerMonth, hov]
    split
    · next h =>
      have hq : (0:ℚ) ≤ cfg.targetIncome / cfg.avgMonthlyRevenue :=
        div_nonneg ht (le_of_lt h)
      exact_mod_cast Int.ceil_nonneg hq
    · norm_num

/-- Claim C4: for every configuration in the documented input domain
(non-negative target income, non-negative override, churn rate in
[0,100]) the running active-customer count of the simulator is never
negative, because each month the churn, the floor of the pool times the
churn fraction, never exceeds the pool it is subtracted from. -/
theorem activeCustomers_never_negative (cfg : CalculatorConfig)
    (h0 : 0 ≤ cfg.churnRate) (h1 : cfg.churnRate ≤ 100)
    (ht : 0 ≤ cfg.targetIncome)
    (hc : ∀ v, cfg.customersPerMonth = some v → 0 ≤ v) :
    ∀ k : ℕ, 0 ≤ (simState cfg k).activeCustomers ∧
      ((⌊((simState cfg k).activeCustomers + customersNeededPerMonth cfg) *
          (cfg.churnRate / 100)⌋ : ℤ) : ℚ) ≤
        (simState cfg k).activeCustomers + customersNeededPerMonth cfg := by
  have hacq : 0 ≤ customersNeededPerMonth cfg := acq_nonneg cfg ht hc
  have key : ∀ s : ℚ, 0 ≤ s →
      ((⌊(s + customersNeededPerMonth cfg) * (cfg.churnRate / 100)⌋ : ℤ) : ℚ) ≤
        s + customersNeededPerMonth cfg := by
    intro s hs
    exact floor_rate_le _ _ (by linarith) h1
  have main : ∀ k, 0 ≤ (simState cfg k).activeCustomers := by
    intro k
    induction k with
    | zero => norm_num [simState, initState]
    | succ k ih =>
      have hb := key _ ih
      show 0 ≤ (simState cfg k).activeCustomers + customersNeededPerMonth cfg -
        ((⌊((simState cfg k).activeCustomers + customersNeededPerMonth cfg) *
          (cfg.churnRate / 100)⌋ : ℤ) : ℚ)
      linarith
  intro k
  exact ⟨main k, key _ (main k)⟩

/-- Witness for claim C4 at the default configuration after one
iteration. -/
theorem activeCustomers_never_negative_witness :
    0 ≤ (simState demoConfig 1).activeCustomers :=
  (activeCustomers_never_negative demoConfig (by norm_num [demoConfig])
    (by norm_num [demoConfig]) (by norm_num [demoConfig])
    (by intro v hv; simp [demoConfig] at hv) 1).1

lemma jsRound_zero : jsRound 0 = 0 := by norm_num [jsRound]

lemma sum_map_zero {α : Type} (l : List α) : (l.map (fun _ => (0:ℚ))).sum = 0 := by
  induction l with
  | nil => rfl
  | cons a l ih => simp [ih]

lemma baseRevenue_active_zero (plans : List Plan) (a : ℚ) :
    baseRevenue plans a 0 = 0 := by
  rw [baseRevenue]
  split
  · rw [foldl_add_map
      (fun plan => plan.price *
        (if totalProb plans > 0 then plan.probability / totalProb plans else 0) * 0)
      plans 0]
    simp [sum_map_zero]
  · simp

lemma auto_zero_acq (cfg : CalculatorConfig)
    (havg : cfg.avgMonthlyRevenue = 0) (hover : cfg.customersPerMonth = none) :
    customersNeededPerMonth cfg = 0 := by
  simp only [customersNeededPerMonth, hover, havg]
  norm_num

lemma simStep_zero (cfg : CalculatorConfig) (m : ℕ)
    (havg : cfg.avgMonthlyRevenue = 0) (hover : cfg.customersPerMonth = none) :
    simStep cfg initState m = (initState, ⟨m, 0, 0, 0, 0, 0, 0, 0, 0⟩) := by
  have hacq := auto_zero_acq cfg havg hover
  simp only [simStep, hacq, initState]
  norm_num [baseRevenue_active_zero, havg, jsRound_zero, Prod.mk.injEq,
    SimState.mk.injEq, MonthData.mk.injEq]

lemma simLoop_zero_fields (cfg : CalculatorConfig)
    (havg : cfg.avgMonthlyRevenue = 0) (hover : cfg.customersPerMonth = none) :
    ∀ (r m : ℕ), ∀ d ∈ simLoop cfg initState m r,
      d.revenue = 0 ∧ d.mrr = 0 ∧ d.netRevenue = 0 ∧ d.expansionRevenue = 0 := by
  intro r
  induction r with
  | zero => intro m d hd; simp [simLoop] at hd
  | succ r ih =>
    intro m d hd
    rw [simLoop_succ, simStep_zero cfg m havg hover] at hd
    rcases List.mem_cons.mp hd with rfl | hd2
    · exact ⟨rfl, rfl, rfl, rfl⟩
    · exact ih (m + 1) d hd2

/-- Claim C7: with a zero flat price and no override, the acquisition
volume is 0 and every record of the run has 0 in all revenue fields. -/
theorem auto_zero_revenue (cfg : CalculatorConfig) (months : ℕ)
    (havg : cfg.avgMonthlyRevenue = 0) (hover : cfg.customersPerMonth = none) :
    customersNeededPerMonth cfg = 0 ∧
    ∀ d ∈ calculateProjections cfg months,
      d.revenue = 0 ∧ d.mrr = 0 ∧ d.netRevenue = 0 ∧ d.expansionRevenue = 0 :=
  ⟨auto_zero_acq cfg havg hover, simLoop_zero_fields cfg havg hover months 1⟩

/-- Witness for claim C7 at a concrete auto-mode configuration with zero
flat price. -/
theorem auto_zero_revenue_witness :
    customersNeededPerMonth autoZeroConfig = 0 :=
  (auto_zero_revenue autoZeroConfig 2 rfl rfl).1

/-- Claim C6: the base revenue of a simulated month follows the three-way
case split of the source: flat rate times active pool when plans are
empty, the probability-weighted plan sum when plans are present with a
positive probability total, and 0 when plans are present but the
probability total is 0. -/
theorem baseRevenue_three_cases (plans : List Plan) (a active : ℚ) :
    (plans = [] → baseRevenue plans a active = active * a) ∧
    (plans ≠ [] → 0 < totalProb plans →
      baseRevenue plans a active =
        (plans.map (fun plan =>
          plan.price * (plan.probability / totalProb plans) * active)).sum) ∧
    (plans ≠ [] → totalProb plans = 0 → baseRevenue plans a active = 0) := by
  refine ⟨?_, ?_, ?_⟩
  · intro h
    subst h
    simp [baseRevenue]
  · intro hne hpos
    have hlen : plans.length > 0 := List.length_pos.mpr hne
    rw [baseRevenue, if_pos hlen]
    rw [foldl_add_map
      (fun plan => plan.price *
        (if totalProb plans > 0 then plan.probability / totalProb plans else 0) * active)
      plans 0]
    simp only [if_pos hpos, zero_add]
  · intro hne hzero
    have hlen : plans.length > 0 := List.length_pos.mpr hne
    rw [baseRevenue, if_pos hlen]
    rw [foldl_add_map
      (fun plan => plan.price *
        (if totalProb plans > 0 then plan.probability / totalProb plans else 0) * active)
      plans 0]
    rw [hzero]
    norm_num [sum_map_zero]

/-- Witness for claim C6 on a two-tier plan list with probabilities
summing to 100 and an active pool of 10. -/
theorem baseRevenue_three_cases_witness :
    baseRevenue demoPlans 50 10 =
      (demoPlans.map (fun plan =>
        plan.price * (plan.probability / totalProb demoPlans) * 10)).sum :=
  (baseRevenue_three_cases demoPlans 50 10).2.1
    (by simp [demoPlans])
    (by norm_num [totalProb, demoPlans, List.foldl])

lemma simLoop_two (cfg : CalculatorConfig) (st : SimState) (m : ℕ) :
    simLoop cfg st m 2 =
      [(simStep cfg st m).2, (simStep cfg (simStep cfg st m).1 (m + 1)).2] := rfl

lemma zeroRevenue_step_one :
    simStep zeroRevenueConfig initState 1 =
      (⟨1, 1, 0, 0, 0, 0⟩, ⟨1, 0, 1, 0, 0, 0, 0, 0, 0⟩) := by
  simp only [simStep]
  norm_num [customersNeededPerMonth, zeroRevenueConfig, initState, baseRevenue,
    totalProb, jsRound, Prod.mk.injEq, SimState.mk.injEq, MonthData.mk.injEq]

lemma zeroRevenue_step_two :
    simStep zeroRevenueConfig ⟨1, 1, 0, 0, 0, 0⟩ 2 =
      (⟨2, 2, 0, 0, 0, 0⟩, ⟨2, 0, 2, 0, 0, 0, 0, 0, 0⟩) := by
  simp only [simStep]
  norm_num [customersNeededPerMonth, zeroRevenueConfig, baseRevenue,
    totalProb, jsRound, Prod.mk.injEq, SimState.mk.injEq, MonthData.mk.injEq]

lemma zeroRevenue_run :
    calculateProjections zeroRevenueConfig 2 =
      [⟨1, 0, 1, 0, 0, 0, 0, 0, 0⟩, ⟨2, 0, 2, 0, 0, 0, 0, 0, 0⟩] := by
  rw [calculateProjections, simLoop_two, zeroRevenue_step_one]
  norm_num [zeroRevenue_step_two]

/-- Counterexample to claim C2: on a simulated series whose first record
has MRR 0, the growth rate is not the guarded value 0: the division by
the first MRR is unguarded in the source, so the JavaScript result is
non-finite (modelled by `none`), and the returned rule-of-40 inherits
it. -/
theorem growthRate_counterexample :
    ((calculateProjections zeroRevenueConfig 2).head?.map MonthData.mrr = some 0) ∧
    growthRateOf (calculateProjections zeroRevenueConfig 2) ≠ some 0 ∧
    (calculateBusinessMetrics (calculateProjections zeroRevenueConfig 2) 0 0 0 0).ruleOf40
      = none := by
  have hg : growthRateOf (calculateProjections zeroRevenueConfig 2) = none := by
    rw [zeroRevenue_run]
    simp [growthRateOf]
  refine ⟨?_, ?_, ?_⟩
  · rw [zeroRevenue_run]
    rfl
  · rw [hg]
    simp
  · simp only [calculateBusinessMetrics]
    rw [hg]
    rfl

/-- Claim C2 (amended): for every non-empty series the growth rate equals
((final.mrr - first.mrr) / first.mrr) * 100 / 60 * 12 whenever the first
MRR is non-zero; when the first MRR is 0 the division is unguarded and
the result is the non-finite marker, not 0. -/
theorem growthRate_formula (ps : List MonthData) (hne : ps ≠ []) :
    ((ps.head hne).mrr ≠ 0 →
      growthRateOf ps =
        some (((((ps.getLast hne).mrr : ℚ) - ((ps.head hne).mrr : ℚ)) /
          ((ps.head hne).mrr : ℚ)) * 100 / 60 * 12)) ∧
    ((ps.head hne).mrr = 0 → growthRateOf ps = none) := by
  have hh : ps.head? = some (ps.head hne) := List.head?_eq_head hne
  have hl : ps.getLast? = some (ps.getLast hne) := List.getLast?_eq_getLast_of_ne_nil hne
  constructor
  · intro hmrr
    have hcast : ((ps.head hne).mrr : ℚ) ≠ 0 := by exact_mod_cast hmrr
    simp only [growthRateOf, hh, hl]
    rw [if_neg hcast]
  · intro hmrr
    have hcast : ((ps.head hne).mrr : ℚ) = 0 := by exact_mod_cast hmrr
    simp only [growthRateOf, hh, hl]
    rw [if_pos hcast]

/-- Witness for claim C2 (amended) on the one-month default run, whose
first and final records coincide with MRR 9000: the formula gives
growth 0. -/
theorem growthRate_formula_witness :
    growthRateOf (calculateProjections demoConfig 1) = some 0 := by
  have hps : calculateProjections demoConfig 1 = [(simStep demoConfig initState 1).2] := rfl
  have hne : calculateProjections demoConfig 1 ≠ [] := by
    rw [hps]
    exact List.cons_ne_nil _ _
  have hc : customersNeededPerMonth demoConfig = 200 := by
    norm_num [customersNeededPerMonth, demoConfig]
  have hmrr : ((calculateProjections demoConfig 1).head hne).mrr = 9000 := by
    have hhead : (calculateProjections demoConfig 1).head hne =
        (simStep demoConfig initState 1).2 := rfl
    rw [hhead]
    simp only [simStep, hc]
    norm_num [demoConfig, initState, baseRevenue, totalProb, jsRound, Int.floor_eq_iff]
  have hlast : ((calculateProjections demoConfig 1).getLast hne).mrr = 9000 := by
    have hgl : (calculateProjections demoConfig 1).getLast hne =
        (simStep demoConfig initState 1).2 := rfl
    rw [hgl]
    simp only [simStep, hc]
    norm_num [demoConfig, initState, baseRevenue, totalProb, jsRound, Int.floor_eq_iff]
  have h := (growthRate_formula (calculateProjections demoConfig 1) hne).1
    (by rw [hmrr]; norm_num)
  rw [h, hmrr, hlast]
  norm_num

/-- Claim C8: the metrics derivation computes CLV from the flat price and
the churn fraction when the churn rate is positive, and as twelve times
the flat price when the churn rate is 0, in which case GRR is exactly
100. -/
theorem clv_branches (ps : List MonthData) (a r c e : ℚ) :
    (0 < r → (calculateBusinessMetrics ps a r c e).clv = jsRound (a / (r / 100))) ∧
    ((calculateBusinessMetrics ps a 0 c e).clv = jsRound (a * 12) ∧
      (calculateBusinessMetrics ps a 0 c e).grr = 100) := by
  constructor
  · intro hr
    have hclv : (calculateBusinessMetrics ps a r c e).clv =
        jsRound (if r / 100 > 0 then a / (r / 100) else a * 12) := rfl
    rw [hclv, if_pos (div_pos hr (by norm_num))]
  · constructor
    · have hclv : (calculateBusinessMetrics ps a 0 c e).clv =
          jsRound (if (0:ℚ) / 100 > 0 then a / ((0:ℚ) / 100) else a * 12) := rfl
      rw [hclv, if_neg (by norm_num)]
    · have hg : (calculateBusinessMetrics ps a 0 c e).grr =
          jsRound1 ((1 - (0:ℚ) / 100) * 100) := rfl
      rw [hg]
      norm_num [jsRound1, jsRound]

/-- Witness for claim C8 at churn rate 10 and flat price 50. -/
theorem clv_branches_witness :
    (calculateBusinessMetrics [] 50 10 100 5).clv = jsRound (50 / (10 / 100)) :=
  (clv_branches [] 50 10 100 5).1 (by norm_num)

/-- Claim C9: with CAC 0 both the LTV to CAC ratio and the payback period
are the guarded value 0; in general the ratio is CLV over CAC only when
CAC is positive and the payback period is CAC over the flat price only
when the flat price is positive, each 0 otherwise. -/
theorem cac_guard_branches (ps : List MonthData) (a r c e : ℚ) :
    ((calculateBusinessMetrics ps a r 0 e).ltvCac = 0 ∧
      (calculateBusinessMetrics ps a r 0 e).paybackPeriod = 0) ∧
    (0 < c → (calculateBusinessMetrics ps a r c e).ltvCac =
      jsRound1 ((if r / 100 > 0 then a / (r / 100) else a * 12) / c)) ∧
    (0 < a → (calculateBusinessMetrics ps a r c e).paybackPeriod = jsRound1 (c / a)) ∧
    (a = 0 → (calculateBusinessMetrics ps a r c e).paybackPeriod = 0) := by
  refine ⟨⟨?_, ?_⟩, ?_, ?_, ?_⟩
  · have h : (calculateBusinessMetrics ps a r 0 e).ltvCac =
        jsRound1 (if (0:ℚ) > 0
          then (if r / 100 > 0 then a / (r / 100) else a * 12) / 0 else 0) := rfl
    rw [h, if_neg (by norm_num)]
    norm_num [jsRound1, jsRound]
  · have h : (calculateBusinessMetrics ps a r 0 e).paybackPeriod =
        jsRound1 (if a > 0 then (0:ℚ) / a else 0) := rfl
    rw [h]
    split
    · norm_num [jsRound1, jsRound]
    · norm_num [jsRound1, jsRound]
  · intro hcac
    have h : (calculateBusinessMetrics ps a r c e).ltvCac =
        jsRound1 (if c > 0
          then (if r / 100 > 0 then a / (r / 100) else a * 12) / c else 0) := rfl
    rw [h, if_pos hcac]
  · intro ha
    have h : (calculateBusinessMetrics ps a r c e).paybackPeriod =
        jsRound1 (if a > 0 then c / a else 0) := rfl
    rw [h, if_pos ha]
  · intro ha
    subst ha
    have h : (calculateBusinessMetrics ps 0 r c e).paybackPeriod =
        jsRound1 (if (0:ℚ) > 0 then c / 0 else 0) := rfl
    rw [h, if_neg (by norm_num)]
    norm_num [jsRound1, jsRound]

/-- Witness for claim C9 at CAC 100, churn rate 10, flat price 50. -/
theorem cac_guard_branches_witness :
    (calculateBusinessMetrics [] 50 10 100 5).ltvCac =
      jsRound1 ((if (10:ℚ) / 100 > 0 then 50 / ((10:ℚ) / 100) else 50 * 12) / 100) :=
  (cac_guard_branches [] 50 10 100 5).2.1 (by norm_num)

end SaaSCalc
